import Mathlib

/-!
Verification of the session-scoped quiz-selection and scoring core of the
random-quiz web application (src/random_quiz_app_20260129_022950.py).

The embedding below models:
- the question bank as a list of `Question` records (one per spreadsheet row),
- module startup column validation (lines 18-21),
- `_pick_question_ids` (lines 96-98): `df.sample(QUESTIONS_PER_QUIZ, replace=False)`,
  with the randomness supplied as an explicit draw of row indices and the
  pandas ValueError on oversized samples as an explicit error value,
- `_get_questions_by_ids` (lines 100-105): filter by membership (`isin`),
  key each row by the position of its id in the requested list
  (`qids.index(x)`), and sort by that key,
- `home` (lines 107-115) and `submit` (lines 117-147) as state transformers
  over the Flask session (the pair of optional keys `qids` / `started_at`),
  with the current time and the fresh random selection passed as parameters,
- the record dictionaries handed to the template
  (`subset.to_dict(orient="records")`) and the subset of record fields the
  quiz-mode template actually reads.
-/

namespace RandomQuiz

/-- A question-bank row: one record of the spreadsheet, with the required
columns and the optional Category / Difficulty columns. -/
structure Question where
  qid : String
  text : String
  optionA : String
  optionB : String
  optionC : String
  optionD : String
  correctAnswer : String
  category : Option String := none
  difficulty : Option String := none
deriving Repr, DecidableEq

/-- The question bank: the data frame loaded once at startup (line 16). -/
abbrev Bank := List Question

/-- The ids column of the bank. -/
def bankIds (bank : Bank) : List String := bank.map Question.qid

/-- Configured quiz size (line 10). -/
def QUESTIONS_PER_QUIZ : Nat := 20

/-- Required columns checked at module startup (line 18). -/
def requiredCols : List String :=
  ["QuestionID", "QuestionText", "OptionA", "OptionB", "OptionC", "OptionD", "CorrectAnswer"]

/-- Module startup validation (lines 18-21): the only check performed before
the app serves traffic is that every required column is present; it raises
RuntimeError otherwise.  Nothing at startup compares the quiz size with the
bank size. -/
def startupColumnCheck (columns : List String) : Except String Unit :=
  if requiredCols.all (fun c => columns.contains c) then Except.ok ()
  else Except.error "Question bank missing columns"

/-- Error raised by pandas when sampling more rows than the population
without replacement (the ValueError from df.sample on line 97). -/
inductive SampleError
  | sampleLargerThanPopulation
deriving Repr, DecidableEq

/-- The function _pick_question_ids (lines 96-98):
df.sample(n, replace=False) draws n distinct rows; we model the random draw
as an explicit list of row indices (a shuffle of the row positions), of which
the first n are taken.  pandas raises when n exceeds the number of rows. -/
def pickQuestionIds (perm : List Nat) (bank : Bank) (n : Nat) :
    Except SampleError (List String) :=
  if n > bank.length then Except.error SampleError.sampleLargerThanPopulation
  else Except.ok (((perm.take n).filterMap (fun i => bank[i]?)).map Question.qid)

/-- Python list.index: position of the first occurrence (line 103's
qids.index(x)). -/
def pyIndex (l : List String) (x : String) : Nat :=
  l.findIdx (fun y => decide (y = x))

/-- The function _get_questions_by_ids (lines 100-105): keep the bank rows
whose id occurs in qids (isin), key each row by the position of its id in
qids, and sort by that key (sort_values on the __order column). -/
def getQuestionsByIds (bank : Bank) (qids : List String) : List Question :=
  let subset := bank.filter (fun q => decide (q.qid ∈ qids))
  subset.insertionSort (fun a b => pyIndex qids a.qid ≤ pyIndex qids b.qid)

/-- Flask session state for one token: the two optional keys the app uses. -/
structure SessionState where
  qids : Option (List String)
  startedAt : Option String
deriving Repr, DecidableEq

/-- A record dictionary as produced by to_dict(orient="records") (line 105):
every required column is a key, plus the optional columns present in the row. -/
def Question.toRecord (q : Question) : List (String × String) :=
  [("QuestionID", q.qid), ("QuestionText", q.text),
   ("OptionA", q.optionA), ("OptionB", q.optionB),
   ("OptionC", q.optionC), ("OptionD", q.optionD),
   ("CorrectAnswer", q.correctAnswer)]
  ++ (match q.category with | some c => [("Category", c)] | none => [])
  ++ (match q.difficulty with | some d => [("Difficulty", d)] | none => [])

/-- Data handed to the quiz-mode template by home (line 115): the question
records and their count n. -/
structure QuizView where
  questions : List (List (String × String))
  n : Nat
deriving Repr, DecidableEq

/-- The home route (lines 107-115) as a state transformer.  The fresh random
selection and the current time are parameters: they are only consulted when
the session holds no qids key. -/
def home (pick : List String) (now : String) (bank : Bank) (s : SessionState) :
    QuizView × SessionState :=
  let s' := if s.qids.isSome then s
            else { qids := some pick, startedAt := some now }
  let questions := getQuestionsByIds bank (s'.qids.getD [])
  ({ questions := questions.map Question.toRecord, n := questions.length }, s')

/-- Record fields the quiz-mode template reads (lines 50-73): the question
text, the optional category and difficulty, the id (radio-group name) and the
four option texts.  CorrectAnswer is not among them. -/
def quizTemplateKeys : List String :=
  ["QuestionText", "Category", "Difficulty", "QuestionID",
   "OptionA", "OptionB", "OptionC", "OptionD"]

/-- Projection of a record to the fields the quiz-mode template renders. -/
def renderedQuestionFields (r : List (String × String)) : List (String × String) :=
  r.filter (fun kv => quizTemplateKeys.contains kv.1)

/-- One entry of the review list built by submit (lines 133-138). -/
structure ReviewItem where
  questionId : String
  questionText : String
  yourAnswer : Option String
  correctAnswer : String
deriving Repr, DecidableEq

/-- The scoring loop of submit (lines 125-138): one pass over the looked-up
questions, reading the submitted label from the form (request.form.get, None
when absent), counting exact matches with CorrectAnswer and appending one
review entry per question in loop order. -/
def scoreAndReview (form : String → Option String) : List Question → Nat × List ReviewItem
  | [] => (0, [])
  | q :: rest =>
    let your := form q.qid
    let tail := scoreAndReview form rest
    ((if your = some q.correctAnswer then 1 else 0) + tail.1,
     { questionId := q.qid, questionText := q.text, yourAnswer := your,
       correctAnswer := q.correctAnswer } :: tail.2)

/-- Outcome of the submit route: a redirect to home, or the rendered result
page with score, n = len(review), the review list, and the timestamp. -/
inductive SubmitOutcome
  | redirectHome
  | result (score : Nat) (n : Nat) (review : List ReviewItem) (submittedAt : String)
deriving Repr, DecidableEq

/-- The submit route (lines 117-147) as a state transformer: redirect when
the session has no qids key (lines 119-120), otherwise look the stored ids up
in the bank, score the form, clear both session keys (lines 143-144) and
render the result with n = len(review) (line 146). -/
def submit (now : String) (bank : Bank) (form : String → Option String)
    (s : SessionState) : SubmitOutcome × SessionState :=
  match s.qids with
  | none => (SubmitOutcome.redirectHome, s)
  | some qids =>
    let questions := getQuestionsByIds bank qids
    let res := scoreAndReview form questions
    (SubmitOutcome.result res.1 res.2.length res.2 now,
     { qids := none, startedAt := none })

/-- The start-over route (lines 149-153): pop both session keys. -/
def startOver (_s : SessionState) : SessionState :=
  { qids := none, startedAt := none }

/-- Score of a submit outcome, when it produced a result page. -/
def SubmitOutcome.scoreOf : SubmitOutcome → Option Nat
  | SubmitOutcome.redirectHome => none
  | SubmitOutcome.result sc _ _ _ => some sc

/-- Total (n) of a submit outcome, when it produced a result page. -/
def SubmitOutcome.totalOf : SubmitOutcome → Option Nat
  | SubmitOutcome.redirectHome => none
  | SubmitOutcome.result _ n _ _ => some n

/-- Review list of a submit outcome, when it produced a result page. -/
def SubmitOutcome.reviewOf : SubmitOutcome → Option (List ReviewItem)
  | SubmitOutcome.redirectHome => none
  | SubmitOutcome.result _ _ r _ => some r

/-- Lookup of the first bank row with a given id. -/
def lookupQ (bank : Bank) (i : String) : Option Question :=
  bank.find? (fun q => decide (q.qid = i))

/-- A tiny concrete bank used to instantiate the theorems below. -/
def bankW : Bank :=
  [{ qid := "Q1", text := "t1", optionA := "a1", optionB := "b1",
     optionC := "c1", optionD := "d1", correctAnswer := "A" },
   { qid := "Q2", text := "t2", optionA := "a2", optionB := "b2",
     optionC := "c2", optionD := "d2", correctAnswer := "C" }]

/-- A concrete form submission used to instantiate the theorems below. -/
def formW : String → Option String
  | "Q1" => some "A"
  | "Q2" => some "C"
  | _ => none

/-- A second concrete form: agrees with formW on the bank ids but also fills
an unrelated form field. -/
def formW2 : String → Option String
  | "Q1" => some "A"
  | "Q2" => some "C"
  | "QX" => some "B"
  | _ => none

/-- Helper: pyIndex on a cons cell. -/
theorem pyIndex_cons (a x : String) (l : List String) :
    pyIndex (a :: l) x = if a = x then 0 else pyIndex l x + 1 := by
  by_cases h : a = x <;> simp [pyIndex, List.findIdx_cons, h]

/-- Helper: on a duplicate-free list, the index of the element at position i
is i. -/
theorem pyIndex_getElem (l : List String) (hnd : l.Nodup) (i : Nat)
    (h : i < l.length) : pyIndex l l[i] = i := by
  induction l generalizing i with
  | nil => simp at h
  | cons a t ih =>
    match i with
    | 0 => simp [pyIndex_cons]
    | Nat.succ j =>
      have hj : j < t.length := by simpa using h
      have hne : a ≠ t[j] := by
        intro he
        have hm : t[j] ∈ t := List.getElem_mem hj
        rw [← he] at hm
        exact (List.nodup_cons.mp hnd).1 hm
      simpa [pyIndex_cons, hne] using ih (List.nodup_cons.mp hnd).2 j hj

/-- Helper: pyIndex is injective on members of the list. -/
theorem pyIndex_inj {l : List String} {x y : String} (hx : x ∈ l) (hy : y ∈ l)
    (h : pyIndex l x = pyIndex l y) : x = y := by
  induction l with
  | nil => cases hx
  | cons a t ih =>
    by_cases hax : a = x <;> by_cases hay : a = y
    · rw [← hax, hay]
    · rw [pyIndex_cons, pyIndex_cons, if_pos hax, if_neg hay] at h
      cases h
    · rw [pyIndex_cons, pyIndex_cons, if_neg hax, if_pos hay] at h
      cases h
    · rw [pyIndex_cons, pyIndex_cons, if_neg hax, if_neg hay] at h
      have hx' : x ∈ t := by
        cases List.mem_cons.mp hx with
        | inl he => exact absurd he.symm hax
        | inr hm => exact hm
      have hy' : y ∈ t := by
        cases List.mem_cons.mp hy with
        | inl he => exact absurd he.symm hay
        | inr hm => exact hm
      exact ih hx' hy' (Nat.succ_injective h)

/-- Helper: membership in the looked-up subset. -/
theorem mem_getQuestionsByIds {bank : Bank} {qids : List String} {q : Question} :
    q ∈ getQuestionsByIds bank qids ↔ q ∈ bank ∧ q.qid ∈ qids := by
  simp [getQuestionsByIds, List.mem_insertionSort, List.mem_filter]

/-- Helper: a successful bank lookup returns a bank row with the requested id. -/
theorem lookupQ_some {bank : Bank} {i : String} {q : Question}
    (h : lookupQ bank i = some q) : q ∈ bank ∧ q.qid = i :=
  ⟨List.mem_of_find?_eq_some h, by simpa using List.find?_some h⟩

/-- Helper: a bank lookup fails exactly when the id is absent from the bank. -/
theorem lookupQ_none_iff {bank : Bank} {i : String} :
    lookupQ bank i = none ↔ i ∉ bankIds bank := by
  rw [lookupQ, List.find?_eq_none]
  constructor
  · intro h hmem
    obtain ⟨q, hq, he⟩ := List.mem_map.mp hmem
    have hne := h q hq
    simp only [decide_eq_true_eq] at hne
    exact hne he
  · intro h q hq
    simp only [decide_eq_true_eq]
    intro he
    exact h (List.mem_map.mpr ⟨q, hq, he⟩)

/-- Helper: the ids of the ordered lookup are the requested ids filtered to
those present in the bank. -/
theorem filterMap_lookupQ_map_qid (bank : Bank) (qids : List String) :
    (qids.filterMap (lookupQ bank)).map Question.qid =
      qids.filter (fun i => decide (i ∈ bankIds bank)) := by
  induction qids with
  | nil => rfl
  | cons i t ih =>
    cases h : lookupQ bank i with
    | none =>
      have hni : i ∉ bankIds bank := lookupQ_none_iff.mp h
      simp [List.filterMap_cons, h, List.filter_cons, hni, ih]
    | some q =>
      obtain ⟨hmem, hqid⟩ := lookupQ_some h
      have hi : i ∈ bankIds bank := by
        rw [← hqid]; exact List.mem_map_of_mem Question.qid hmem
      simp [List.filterMap_cons, h, List.filter_cons, hi, ih, hqid]

/-- Helper: sorting by a numeric key is determined once the input has
pairwise-distinct keys: the result is the unique key-sorted reordering. -/
theorem insertionSort_eq_of_perm_of_sorted {α : Type} (key : α → Nat) (l r : List α)
    (hperm : l.Perm r)
    (hl_ne : l.Pairwise (fun a b => key a ≠ key b))
    (hr_sorted : r.Pairwise (fun a b => key a < key b)) :
    l.insertionSort (fun a b => key a ≤ key b) = r := by
  haveI : IsTotal α (fun a b => key a ≤ key b) :=
    ⟨fun a b => Nat.le_total (key a) (key b)⟩
  haveI : IsTrans α (fun a b => key a ≤ key b) :=
    ⟨fun _ _ _ hab hbc => Nat.le_trans hab hbc⟩
  have hLperm : (l.insertionSort (fun a b => key a ≤ key b)).Perm l :=
    List.perm_insertionSort _ l
  have hLsorted_le :
      (l.insertionSort (fun a b => key a ≤ key b)).Pairwise
        (fun a b => key a ≤ key b) :=
    List.sorted_insertionSort _ l
  have hLpw_ne :
      (l.insertionSort (fun a b => key a ≤ key b)).Pairwise
        (fun a b => key a ≠ key b) :=
    (hLperm.pairwise_iff (fun h => h.symm)).mpr hl_ne
  have hLsorted :
      (l.insertionSort (fun a b => key a ≤ key b)).Pairwise
        (fun a b => key a < key b) := by
    refine (hLsorted_le.and hLpw_ne).imp ?_
    intro a b hab
    have h1 : key a ≤ key b := hab.1
    have h2 : key a ≠ key b := hab.2
    omega
  haveI : IsAntisymm α (fun a b => key a < key b) :=
    ⟨fun _ _ h h' => (Nat.lt_asymm h h').elim⟩
  exact List.eq_of_perm_of_sorted (hLperm.trans hperm) hLsorted hr_sorted

/-- Helper: when the bank ids are unique and the requested ids are unique
(the data-model invariants), _get_questions_by_ids is exactly the ordered
lookup: for each requested id in order, the bank row with that id when
present. -/
theorem getQuestionsByIds_eq_filterMap (bank : Bank) (qids : List String)
    (hb : (bankIds bank).Nodup) (hq : qids.Nodup) :
    getQuestionsByIds bank qids = qids.filterMap (lookupQ bank) := by
  have hbank_nd : bank.Nodup := List.Nodup.of_map Question.qid hb
  have hmem_subset : ∀ {q : Question},
      q ∈ bank.filter (fun q => decide (q.qid ∈ qids)) ↔ q ∈ bank ∧ q.qid ∈ qids := by
    intro q
    simp [List.mem_filter]
  -- the filtered subset has pairwise distinct keys
  have hsub_map_nd :
      ((bank.filter (fun q => decide (q.qid ∈ qids))).map Question.qid).Nodup :=
    List.Nodup.sublist (List.Sublist.map Question.qid (List.filter_sublist bank)) hb
  have hsub_pw_ne :
      (bank.filter (fun q => decide (q.qid ∈ qids))).Pairwise
        (fun a b => a.qid ≠ b.qid) :=
    (List.pairwise_map).mp hsub_map_nd
  have hsub_key_ne :
      (bank.filter (fun q => decide (q.qid ∈ qids))).Pairwise
        (fun a b => pyIndex qids a.qid ≠ pyIndex qids b.qid) := by
    refine hsub_pw_ne.imp_of_mem ?_
    intro a b ha hb' hne heq
    exact hne (pyIndex_inj (hmem_subset.mp ha).2 (hmem_subset.mp hb').2 heq)
  have hsub_nd : (bank.filter (fun q => decide (q.qid ∈ qids))).Nodup :=
    List.Nodup.filter _ hbank_nd
  -- the ordered lookup: same membership, duplicate-free, sorted by the key
  have hRmap : (qids.filterMap (lookupQ bank)).map Question.qid =
      qids.filter (fun i => decide (i ∈ bankIds bank)) :=
    filterMap_lookupQ_map_qid bank qids
  have hRmap_nd : ((qids.filterMap (lookupQ bank)).map Question.qid).Nodup := by
    rw [hRmap]; exact List.Nodup.filter _ hq
  have hRnd : (qids.filterMap (lookupQ bank)).Nodup :=
    List.Nodup.of_map Question.qid hRmap_nd
  have hmemR : ∀ x : Question, x ∈ bank.filter (fun q => decide (q.qid ∈ qids)) ↔
      x ∈ qids.filterMap (lookupQ bank) := by
    intro x
    constructor
    · intro hx
      obtain ⟨hxb, hxq⟩ := hmem_subset.mp hx
      cases hfind : lookupQ bank x.qid with
      | none =>
        have hni : x.qid ∉ bankIds bank := lookupQ_none_iff.mp hfind
        exact absurd (List.mem_map_of_mem Question.qid hxb) hni
      | some q =>
        obtain ⟨hqb, hqid⟩ := lookupQ_some hfind
        have hxeq : q = x := List.inj_on_of_nodup_map hb hqb hxb hqid
        exact List.mem_filterMap.mpr ⟨x.qid, hxq, by rw [hfind, hxeq]⟩
    · intro hx
      obtain ⟨i, hi, hfx⟩ := List.mem_filterMap.mp hx
      obtain ⟨hxb, hxq⟩ := lookupQ_some hfx
      exact hmem_subset.mpr ⟨hxb, by rw [hxq]; exact hi⟩
  have hRperm : (bank.filter (fun q => decide (q.qid ∈ qids))).Perm
      (qids.filterMap (lookupQ bank)) :=
    (List.perm_ext_iff_of_nodup hsub_nd hRnd).mpr hmemR
  have hRsorted : (qids.filterMap (lookupQ bank)).Pairwise
      (fun a b => pyIndex qids a.qid < pyIndex qids b.qid) := by
    have hqids_pw : qids.Pairwise (fun x y => pyIndex qids x < pyIndex qids y) := by
      rw [List.pairwise_iff_getElem]
      intro i j hi hj hij
      rw [pyIndex_getElem qids hq i hi, pyIndex_getElem qids hq j hj]
      exact hij
    have hfilter_pw :
        (qids.filter (fun i => decide (i ∈ bankIds bank))).Pairwise
          (fun x y => pyIndex qids x < pyIndex qids y) :=
      List.Pairwise.sublist (List.filter_sublist qids) hqids_pw
    have hmap_pw := hRmap ▸ hfilter_pw
    have hres := List.pairwise_map.mp hmap_pw
    exact hres
  exact insertionSort_eq_of_perm_of_sorted (fun q => pyIndex qids q.qid)
    (bank.filter (fun q => decide (q.qid ∈ qids))) (qids.filterMap (lookupQ bank))
    hRperm hsub_key_ne hRsorted

/-- C9: submitting while the session is Absent redirects to home and leaves
the session state unchanged (lines 119-120: the redirect is returned before
any session mutation). -/
theorem submit_absent_redirects_no_change
    (now : String) (bank : Bank) (form : String → Option String)
    (s : SessionState) (h : s.qids = none) :
    submit now bank form s = (SubmitOutcome.redirectHome, s) := by
  simp [submit, h]

/-- Witness for submit_absent_redirects_no_change at a concrete input. -/
theorem submit_absent_redirects_no_change_witness :
    (SessionState.mk none none).qids = none ∧
      submit "t0" bankW formW (SessionState.mk none none) =
        (SubmitOutcome.redirectHome, SessionState.mk none none) :=
  ⟨rfl, submit_absent_redirects_no_change "t0" bankW formW (SessionState.mk none none) rfl⟩

/-- C6: on an Active session, home leaves the state unchanged, and a repeated
home call (with any other fresh pick and time) returns the identical view:
the stored question set and order are reused, never reselected. -/
theorem home_idempotent_on_active
    (pick pick₂ : List String) (now now₂ : String) (bank : Bank)
    (s : SessionState) (q : List String) (h : s.qids = some q) :
    (home pick now bank s).2 = s ∧
      (home pick₂ now₂ bank (home pick now bank s).2).1 = (home pick now bank s).1 := by
  have hs : s.qids.isSome = true := by rw [h]; rfl
  constructor
  · simp [home, hs]
  · simp [home, hs]

/-- Witness for home_idempotent_on_active at a concrete input. -/
theorem home_idempotent_on_active_witness :
    (SessionState.mk (some ["Q2", "Q1"]) (some "s0")).qids = some ["Q2", "Q1"] ∧
      ((home ["Q1"] "t1" bankW (SessionState.mk (some ["Q2", "Q1"]) (some "s0"))).2 =
          SessionState.mk (some ["Q2", "Q1"]) (some "s0") ∧
        (home ["Q2"] "t2" bankW
            (home ["Q1"] "t1" bankW (SessionState.mk (some ["Q2", "Q1"]) (some "s0"))).2).1 =
          (home ["Q1"] "t1" bankW (SessionState.mk (some ["Q2", "Q1"]) (some "s0"))).1) :=
  ⟨rfl, home_idempotent_on_active ["Q1"] ["Q2"] "t1" "t2" bankW
    (SessionState.mk (some ["Q2", "Q1"]) (some "s0")) ["Q2", "Q1"] rfl⟩

/-- C8: a successful submit clears both session keys (state Absent), and the
next home call on that state stores the freshly drawn selection and the new
start time, rather than resuming the old set. -/
theorem submit_clears_session_then_home_repicks
    (now now₂ : String) (bank : Bank) (form : String → Option String)
    (s : SessionState) (q pick₂ : List String) (h : s.qids = some q) :
    (submit now bank form s).2 = SessionState.mk none none ∧
      (home pick₂ now₂ bank (submit now bank form s).2).2 =
        SessionState.mk (some pick₂) (some now₂) := by
  have h1 : (submit now bank form s).2 = SessionState.mk none none := by
    simp [submit, h]
  refine ⟨h1, ?_⟩
  rw [h1]
  simp [home]

/-- Witness for submit_clears_session_then_home_repicks at a concrete input. -/
theorem submit_clears_session_then_home_repicks_witness :
    (SessionState.mk (some ["Q1"]) (some "s0")).qids = some ["Q1"] ∧
      ((submit "t1" bankW formW (SessionState.mk (some ["Q1"]) (some "s0"))).2 =
          SessionState.mk none none ∧
        (home ["Q2"] "t2" bankW
            (submit "t1" bankW formW (SessionState.mk (some ["Q1"]) (some "s0"))).2).2 =
          SessionState.mk (some ["Q2"]) (some "t2")) :=
  ⟨rfl, submit_clears_session_then_home_repicks "t1" "t2" bankW formW
    (SessionState.mk (some ["Q1"]) (some "s0")) ["Q1"] ["Q2"] rfl⟩

/-- Helper: the review list has one entry per looked-up question. -/
theorem scoreAndReview_length (form : String → Option String) (qs : List Question) :
    (scoreAndReview form qs).2.length = qs.length := by
  induction qs with
  | nil => rfl
  | cons q rest ih => simp [scoreAndReview, ih]

/-- Helper: the review ids follow the looked-up question ids in order. -/
theorem scoreAndReview_review_ids (form : String → Option String) (qs : List Question) :
    (scoreAndReview form qs).2.map ReviewItem.questionId = qs.map Question.qid := by
  induction qs with
  | nil => rfl
  | cons q rest ih => simp [scoreAndReview, ih]

/-- Helper: a form answering every looked-up question correctly scores one
point per question. -/
theorem scoreAndReview_all_correct (form : String → Option String) (qs : List Question)
    (h : ∀ q ∈ qs, form q.qid = some q.correctAnswer) :
    (scoreAndReview form qs).1 = qs.length := by
  induction qs with
  | nil => rfl
  | cons q rest ih =>
    have hq := h q (List.mem_cons_self q rest)
    have ih' := ih (fun x hx => h x (List.mem_cons_of_mem q hx))
    simp [scoreAndReview, hq, ih']
    omega

/-- Helper: scoring reads the form only at the looked-up question ids. -/
theorem scoreAndReview_congr (f₁ f₂ : String → Option String) (qs : List Question)
    (h : ∀ q ∈ qs, f₁ q.qid = f₂ q.qid) :
    scoreAndReview f₁ qs = scoreAndReview f₂ qs := by
  induction qs with
  | nil => rfl
  | cons q rest ih =>
    have hq := h q (List.mem_cons_self q rest)
    have ih' := ih (fun x hx => h x (List.mem_cons_of_mem q hx))
    simp [scoreAndReview, hq, ih']

/-- Helper: ids of the looked-up questions, in requested order, restricted to
ids present in the bank. -/
theorem getQuestionsByIds_map_qid (bank : Bank) (qids : List String)
    (hb : (bankIds bank).Nodup) (hq : qids.Nodup) :
    (getQuestionsByIds bank qids).map Question.qid =
      qids.filter (fun i => decide (i ∈ bankIds bank)) := by
  rw [getQuestionsByIds_eq_filterMap bank qids hb hq]
  exact filterMap_lookupQ_map_qid bank qids

/-- Helper: with every requested id present in the bank, lookup reproduces the
requested ids exactly, in order. -/
theorem getQuestionsByIds_map_qid_of_present (bank : Bank) (qids : List String)
    (hb : (bankIds bank).Nodup) (hq : qids.Nodup)
    (hpres : ∀ i ∈ qids, i ∈ bankIds bank) :
    (getQuestionsByIds bank qids).map Question.qid = qids := by
  rw [getQuestionsByIds_map_qid bank qids hb hq]
  exact List.filter_eq_self.mpr (fun i hi => by simpa using hpres i hi)

/-- C1: on an Active session whose selected ids are all in the bank, a
submission answering every selected question with its correctAnswer scores
score = total = number of selected ids. -/
theorem submit_all_correct_scores_total
    (now : String) (bank : Bank) (form : String → Option String)
    (st : Option String) (qids : List String)
    (hb : (bankIds bank).Nodup) (hq : qids.Nodup)
    (hpres : ∀ i ∈ qids, i ∈ bankIds bank)
    (hform : ∀ q ∈ bank, q.qid ∈ qids → form q.qid = some q.correctAnswer) :
    (submit now bank form (SessionState.mk (some qids) st)).1.scoreOf =
        some qids.length ∧
      (submit now bank form (SessionState.mk (some qids) st)).1.totalOf =
        some qids.length := by
  have hids : (getQuestionsByIds bank qids).map Question.qid = qids :=
    getQuestionsByIds_map_qid_of_present bank qids hb hq hpres
  have hlen : (getQuestionsByIds bank qids).length = qids.length := by
    have hlm := congrArg List.length hids
    rwa [List.length_map] at hlm
  have hallc : ∀ q ∈ getQuestionsByIds bank qids, form q.qid = some q.correctAnswer := by
    intro q hqmem
    obtain ⟨hqb, hqq⟩ := mem_getQuestionsByIds.mp hqmem
    exact hform q hqb hqq
  have hscore : (scoreAndReview form (getQuestionsByIds bank qids)).1 = qids.length := by
    rw [scoreAndReview_all_correct form _ hallc, hlen]
  have htot : (scoreAndReview form (getQuestionsByIds bank qids)).2.length = qids.length := by
    rw [scoreAndReview_length, hlen]
  constructor
  · simp [submit, SubmitOutcome.scoreOf, hscore]
  · simp [submit, SubmitOutcome.totalOf, htot]

/-- Witness for submit_all_correct_scores_total at a concrete input. -/
theorem submit_all_correct_scores_total_witness :
    (bankIds bankW).Nodup ∧
      (submit "t9" bankW formW (SessionState.mk (some ["Q2", "Q1"]) (some "s"))).1.scoreOf =
          some 2 ∧
        (submit "t9" bankW formW (SessionState.mk (some ["Q2", "Q1"]) (some "s"))).1.totalOf =
          some 2 :=
  ⟨by decide,
    submit_all_correct_scores_total "t9" bankW formW (some "s") ["Q2", "Q1"]
      (by decide) (by decide) (by decide) (by decide)⟩

/-- C7: on an Active session whose selected ids are all in the bank, the
review produced by submit lists exactly one item per selected id, in the
session's stored selection order. -/
theorem submit_review_order_matches_selection
    (now : String) (bank : Bank) (form : String → Option String)
    (st : Option String) (qids : List String)
    (hb : (bankIds bank).Nodup) (hq : qids.Nodup)
    (hpres : ∀ i ∈ qids, i ∈ bankIds bank) :
    ((submit now bank form (SessionState.mk (some qids) st)).1.reviewOf).map
        (fun r => r.map ReviewItem.questionId) = some qids := by
  have hids : (getQuestionsByIds bank qids).map Question.qid = qids :=
    getQuestionsByIds_map_qid_of_present bank qids hb hq hpres
  have hrev : (scoreAndReview form (getQuestionsByIds bank qids)).2.map
      ReviewItem.questionId = qids := by
    rw [scoreAndReview_review_ids, hids]
  simp [submit, SubmitOutcome.reviewOf, hrev]

/-- Witness for submit_review_order_matches_selection at a concrete input. -/
theorem submit_review_order_matches_selection_witness :
    (bankIds bankW).Nodup ∧
      ((submit "t9" bankW formW (SessionState.mk (some ["Q2", "Q1"]) (some "s"))).1.reviewOf).map
          (fun r => r.map ReviewItem.questionId) = some ["Q2", "Q1"] :=
  ⟨by decide,
    submit_review_order_matches_selection "t9" bankW formW (some "s") ["Q2", "Q1"]
      (by decide) (by decide) (by decide)⟩

/-- C10: on an Active session whose selected ids are all in the bank, the
submit outcome depends only on the submitted labels at the selected ids: two
forms agreeing there (whatever other fields they carry) produce identical
results. -/
theorem submit_depends_only_on_selected_labels
    (now : String) (bank : Bank) (f₁ f₂ : String → Option String)
    (st : Option String) (qids : List String)
    (_hpres : ∀ i ∈ qids, i ∈ bankIds bank)
    (hagree : ∀ i ∈ qids, f₁ i = f₂ i) :
    submit now bank f₁ (SessionState.mk (some qids) st) =
      submit now bank f₂ (SessionState.mk (some qids) st) := by
  have hcong : scoreAndReview f₁ (getQuestionsByIds bank qids) =
      scoreAndReview f₂ (getQuestionsByIds bank qids) := by
    refine scoreAndReview_congr f₁ f₂ _ ?_
    intro q hqmem
    exact hagree q.qid (mem_getQuestionsByIds.mp hqmem).2
  simp [submit, hcong]

/-- Witness for submit_depends_only_on_selected_labels at a concrete input:
the second form also fills an unrelated field QX, and the outcome is
unchanged. -/
theorem submit_depends_only_on_selected_labels_witness :
    (∀ i ∈ ["Q2", "Q1"], formW i = formW2 i) ∧
      submit "t9" bankW formW (SessionState.mk (some ["Q2", "Q1"]) (some "s")) =
        submit "t9" bankW formW2 (SessionState.mk (some ["Q2", "Q1"]) (some "s")) :=
  ⟨by decide,
    submit_depends_only_on_selected_labels "t9" bankW formW formW2 (some "s")
      ["Q2", "Q1"] (by decide) (by decide)⟩

/-- Helper: indexing a duplicate-free list of in-range row positions yields
that many bank rows, with pairwise distinct ids, all rows of the bank. -/
theorem rows_of_indices (bank : Bank) (hb : (bankIds bank).Nodup) :
    ∀ l : List Nat, (∀ i ∈ l, i < bank.length) → l.Nodup →
      (l.filterMap (fun i => bank[i]?)).length = l.length ∧
      ((l.filterMap (fun i => bank[i]?)).map Question.qid).Nodup ∧
      ∀ q ∈ l.filterMap (fun i => bank[i]?), q ∈ bank := by
  intro l
  induction l with
  | nil =>
    intro _ _
    exact ⟨rfl, List.nodup_nil, by intro q hq; cases hq⟩
  | cons i t ih =>
    intro hrange hnd
    have hi : i < bank.length := hrange i (List.mem_cons_self i t)
    have htr : ∀ j ∈ t, j < bank.length :=
      fun j hj => hrange j (List.mem_cons_of_mem i hj)
    have hnd' := List.nodup_cons.mp hnd
    obtain ⟨ihlen, ihnd, ihmem⟩ := ih htr hnd'.2
    have hcons : (i :: t).filterMap (fun i => bank[i]?) =
        bank[i] :: t.filterMap (fun i => bank[i]?) := by
      rw [List.filterMap_cons]
      simp [List.getElem?_eq_getElem hi]
    refine ⟨?_, ?_, ?_⟩
    · rw [hcons]
      simp [ihlen]
    · rw [hcons, List.map_cons, List.nodup_cons]
      refine ⟨?_, ihnd⟩
      intro hmem
      obtain ⟨q, hqmem, hqid⟩ := List.mem_map.mp hmem
      obtain ⟨j, hjmem, hjval⟩ := List.mem_filterMap.mp hqmem
      have hj : j < bank.length := htr j hjmem
      have hqj : q = bank[j] := by
        rw [List.getElem?_eq_getElem hj] at hjval
        exact (Option.some.inj hjval).symm
      have hjb : j < (bankIds bank).length := by
        simpa [bankIds] using hj
      have hib : i < (bankIds bank).length := by
        simpa [bankIds] using hi
      have h2 : (bankIds bank)[j] = (bankIds bank)[i] := by
        simp only [bankIds, List.getElem_map]
        rw [← hqj]
        exact hqid
      have hji : j = i := (List.Nodup.getElem_inj_iff hb).mp h2
      exact hnd'.1 (hji ▸ hjmem)
    · intro q hq
      rw [hcons] at hq
      cases List.mem_cons.mp hq with
      | inl he => exact he ▸ List.getElem_mem hi
      | inr hm => exact ihmem q hm
/-- C2: for a valid bank (unique ids) and a count at most the bank size, the
random selection succeeds and returns exactly count pairwise-distinct ids,
each present in the bank; the random draw is any duplicate-free in-range
shuffle of the row positions. -/
theorem pickQuestionIds_count_distinct_in_bank
    (perm : List Nat) (bank : Bank) (count : Nat)
    (hb : (bankIds bank).Nodup) (hcount : count ≤ bank.length)
    (hplen : bank.length ≤ perm.length) (hpnd : perm.Nodup)
    (hprange : ∀ i ∈ perm, i < bank.length) :
    ∃ ids, pickQuestionIds perm bank count = Except.ok ids ∧
      ids.length = count ∧ ids.Nodup ∧ ∀ x ∈ ids, x ∈ bankIds bank := by
  have hnot : ¬ count > bank.length := by omega
  have htake_range : ∀ i ∈ perm.take count, i < bank.length :=
    fun i hi => hprange i (List.take_subset count perm hi)
  have htake_nd : (perm.take count).Nodup :=
    List.Nodup.sublist (List.take_sublist count perm) hpnd
  obtain ⟨hlen, hnd, hmem⟩ := rows_of_indices bank hb (perm.take count) htake_range htake_nd
  refine ⟨((perm.take count).filterMap (fun i => bank[i]?)).map Question.qid,
    ?_, ?_, hnd, ?_⟩
  · simp [pickQuestionIds, hnot]
  · rw [List.length_map, hlen, List.length_take,
      Nat.min_eq_left (Nat.le_trans hcount hplen)]
  · intro x hx
    obtain ⟨q, hqmem, hqx⟩ := List.mem_map.mp hx
    exact hqx ▸ List.mem_map_of_mem Question.qid (hmem q hqmem)

/-- Witness for pickQuestionIds_count_distinct_in_bank at a concrete input. -/
theorem pickQuestionIds_count_distinct_in_bank_witness :
    (bankIds bankW).Nodup ∧
      ∃ ids, pickQuestionIds [1, 0] bankW 2 = Except.ok ids ∧
        ids.length = 2 ∧ ids.Nodup ∧ ∀ x ∈ ids, x ∈ bankIds bankW :=
  ⟨by decide,
    pickQuestionIds_count_distinct_in_bank [1, 0] bankW 2
      (by decide) (by decide) (by decide) (by decide) (by decide)⟩

/-- C3 (amended): selecting with a count exceeding the bank size always fails
with the sample-larger-than-population error — hence never returns a short or
duplicated id set — but the failure is raised at selection time, not at
module startup. -/
theorem pickQuestionIds_count_exceeds_bank_errors
    (perm : List Nat) (bank : Bank) (count : Nat) (h : count > bank.length) :
    pickQuestionIds perm bank count =
      Except.error SampleError.sampleLargerThanPopulation := by
  simp [pickQuestionIds, h]

/-- Witness for pickQuestionIds_count_exceeds_bank_errors at a concrete
input. -/
theorem pickQuestionIds_count_exceeds_bank_errors_witness :
    QUESTIONS_PER_QUIZ > bankW.length ∧
      pickQuestionIds [0, 1] bankW QUESTIONS_PER_QUIZ =
        Except.error SampleError.sampleLargerThanPopulation :=
  ⟨by decide,
    pickQuestionIds_count_exceeds_bank_errors [0, 1] bankW QUESTIONS_PER_QUIZ
      (by decide)⟩

/-- C3 (counterexample): a configured quiz size exceeding the bank size is
not caught at startup: module startup only checks the required columns, so
with a 2-row bank and quiz size 20 startup succeeds and the process serves
traffic; the error surfaces only when selection runs. -/
theorem startup_passes_despite_oversized_quiz :
    startupColumnCheck requiredCols = Except.ok () ∧
      QUESTIONS_PER_QUIZ > bankW.length ∧
      pickQuestionIds [0, 1] bankW QUESTIONS_PER_QUIZ =
        Except.error SampleError.sampleLargerThanPopulation := by
  exact ⟨rfl, by decide, rfl⟩

/-- C4 (counterexample): scoring a session that references the absent id QX
does not fail: submit completes normally and returns a one-item review, the
missing id silently dropped from the scored set and the review. -/
theorem submit_missing_id_silently_dropped_concrete :
    (submit "ts" bankW (fun _ => none)
        (SessionState.mk (some ["Q1", "QX"]) (some "s"))).1 =
      SubmitOutcome.result 0 1
        [ReviewItem.mk "Q1" "t1" none "A"] "ts" := by decide

/-- C4 (amended): a selected id absent from the bank is silently dropped
during scoring: submit still succeeds (no integrity failure exists in the
code), and the review covers exactly the selected ids present in the bank,
in selection order. -/
theorem submit_silently_drops_missing_ids
    (now : String) (bank : Bank) (form : String → Option String)
    (st : Option String) (qids : List String)
    (hb : (bankIds bank).Nodup) (hq : qids.Nodup) :
    ((submit now bank form (SessionState.mk (some qids) st)).1.reviewOf).map
        (fun r => r.map ReviewItem.questionId) =
      some (qids.filter (fun i => decide (i ∈ bankIds bank))) := by
  have hids := getQuestionsByIds_map_qid bank qids hb hq
  have hrev : (scoreAndReview form (getQuestionsByIds bank qids)).2.map
      ReviewItem.questionId = qids.filter (fun i => decide (i ∈ bankIds bank)) := by
    rw [scoreAndReview_review_ids, hids]
  simp [submit, SubmitOutcome.reviewOf, hrev]

/-- Witness for submit_silently_drops_missing_ids at a concrete input with a
missing id. -/
theorem submit_silently_drops_missing_ids_witness :
    (bankIds bankW).Nodup ∧
      ((submit "ts" bankW formW
            (SessionState.mk (some ["Q2", "QX"]) (some "s"))).1.reviewOf).map
          (fun r => r.map ReviewItem.questionId) =
        some (["Q2", "QX"].filter (fun i => decide (i ∈ bankIds bankW))) :=
  ⟨by decide,
    submit_silently_drops_missing_ids "ts" bankW formW (some "s") ["Q2", "QX"]
      (by decide) (by decide)⟩

/-- C5 (counterexample): the record data home passes to the template does
contain a question's correct answer: the record built for Q1 carries the
CorrectAnswer field. -/
theorem home_record_contains_correct_answer :
    ∃ r ∈ (home ["Q1"] "t0" bankW (SessionState.mk none none)).1.questions,
      ("CorrectAnswer", "A") ∈ r := by decide

/-- C5 (amended): although the records handed to the template contain
CorrectAnswer, the projection to the fields the quiz-mode template actually
reads and renders never includes it, for every bank and session state. -/
theorem rendered_quiz_fields_omit_correct_answer
    (pick : List String) (now : String) (bank : Bank) (s : SessionState)
    (r : List (String × String)) (v : String)
    (_hr : r ∈ (home pick now bank s).1.questions) :
    ("CorrectAnswer", v) ∉ renderedQuestionFields r := by
  intro hmem
  have h2 : quizTemplateKeys.contains "CorrectAnswer" = true :=
    (List.mem_filter.mp hmem).2
  exact absurd h2 (by decide)

/-- Witness for rendered_quiz_fields_omit_correct_answer at a concrete
record produced by home. -/
theorem rendered_quiz_fields_omit_correct_answer_witness :
    ([("QuestionID", "Q1"), ("QuestionText", "t1"), ("OptionA", "a1"),
        ("OptionB", "b1"), ("OptionC", "c1"), ("OptionD", "d1"),
        ("CorrectAnswer", "A")] ∈
      (home ["Q1"] "t0" bankW (SessionState.mk none none)).1.questions) ∧
      ("CorrectAnswer", "A") ∉ renderedQuestionFields
        [("QuestionID", "Q1"), ("QuestionText", "t1"), ("OptionA", "a1"),
         ("OptionB", "b1"), ("OptionC", "c1"), ("OptionD", "d1"),
         ("CorrectAnswer", "A")] :=
  ⟨by decide,
    rendered_quiz_fields_omit_correct_answer ["Q1"] "t0" bankW
      (SessionState.mk none none)
      [("QuestionID", "Q1"), ("QuestionText", "t1"), ("OptionA", "a1"),
       ("OptionB", "b1"), ("OptionC", "c1"), ("OptionD", "d1"),
       ("CorrectAnswer", "A")] "A" (by decide)⟩

end RandomQuiz
